import Mathlib

/-!
Shallow embedding of `src/Local_IAM_Users_SecurityAutomation-role.py`.

The script assumes a cross-account role per account, fetches that account's
IAM credential report, enriches each report row with access-key ids, key
ages and a password-unused flag, and appends everything to one worksheet
that is saved at the end of the run.

Modelling conventions:
* The clock (`datetime.now(timezone.utc)`) is an explicit `now : Int`
  parameter, in seconds on the same scale as parsed timestamps.
* `datetime.strptime(ts, "%Y-%m-%dT%H:%M:%SZ")` is `parseTimestamp`,
  returning `none` exactly when Python raises `ValueError`.
* `timedelta.days` is floor division of the second difference by 86400
  (`Int.fdiv`), matching Python's normalisation of negative timedeltas.
* AWS calls are oracle inputs: role assumption is a Bool, report
  generation an `Except`, polling a function `Nat → PollResp`, and
  `list_access_keys` a function returning formatted (CreateDate, KeyId)
  pairs or an error.  A Python `dict` built from pairs is an association
  list looked up with last-write-wins.
* Raising an uncaught exception is `Except.error ()`; `try/except`
  branches become `match`es on the oracle results.
* `print` appends to a `log : List String`; `ws.append` appends to
  `sheet : List (List String)`; `wb.save` sets a `saved` flag.
-/

namespace IAMReport

/-! ### String helpers

String operations are routed through structurally recursive `List Char`
functions (semantically the same as Python's `str.split`, `str.strip`,
`str.startswith`), so that every definition evaluates by kernel
reduction. -/

/-- Python's `s.split(sep)` for a one-character separator: splitting the
empty string gives `[""]`, and separators at the ends give empty pieces. -/
def splitOnChar (sep : Char) : List Char → List (List Char)
  | [] => [[]]
  | c :: rest =>
    let r := splitOnChar sep rest
    if c = sep then [] :: r
    else
      match r with
      | [] => [[c]]
      | h :: t => (c :: h) :: t

/-- `splitOnChar` on `String`s. -/
def splitString (sep : Char) (s : String) : List String :=
  (splitOnChar sep s.toList).map List.asString

/-- Python's `s.strip()`: remove leading and trailing whitespace. -/
def pyStrip (s : String) : String :=
  (((s.toList.dropWhile Char.isWhitespace).reverse.dropWhile
      Char.isWhitespace).reverse).asString

/-- Python's `s.startswith(p)`, with the pattern second. -/
def startsWithList : List Char → List Char → Bool
  | _, [] => true
  | [], _ :: _ => false
  | c :: cs, p :: ps => c = p && startsWithList cs ps

/-- Python's `username.startswith(pat)`. -/
def pyStartsWith (s pat : String) : Bool :=
  startsWithList s.toList pat.toList

/-- Decimal value of a digit list (callers check `Char.isDigit` first). -/
def digitsToNat (l : List Char) : Nat :=
  l.foldl (fun n c => n * 10 + (c.toNat - 48)) 0

/-! ### Timestamp parsing (`datetime.strptime` with format `%Y-%m-%dT%H:%M:%SZ`) -/

/-- A run of ASCII digits of length between `wmin` and `wmax`, as a number.
Mirrors one field of the `_strptime` regex (e.g. `%m` accepts 1 or 2 digits,
`%Y` exactly 4). -/
def parseField (s : List Char) (wmin wmax : Nat) : Option Nat :=
  if (s.all Char.isDigit) && wmin ≤ s.length && s.length ≤ wmax then
    some (digitsToNat s)
  else
    none

/-- Gregorian leap-year test, as in Python's `calendar`/`datetime`. -/
def isLeap (y : Nat) : Bool :=
  (y % 4 == 0 && y % 100 != 0) || y % 400 == 0

/-- Number of days in month `m` of year `y` (used by `datetime`'s day-of-month
validation). -/
def daysInMonth (y m : Nat) : Nat :=
  if m = 2 then (if isLeap y then 29 else 28)
  else if m = 4 ∨ m = 6 ∨ m = 9 ∨ m = 11 then 30
  else 31

/-- Days in the months of year `y` strictly before month `m`. -/
def daysBeforeMonth (y m : Nat) : Nat :=
  (List.range (m - 1)).foldl (fun acc i => acc + daysInMonth y (i + 1)) 0

/-- Proleptic-Gregorian day number of the date `y-m-d` (0 for 0001-01-01),
as in `datetime.toordinal` up to a constant offset. -/
def dayNumber (y m d : Nat) : Nat :=
  365 * (y - 1) + (y - 1) / 4 - (y - 1) / 100 + (y - 1) / 400
    + daysBeforeMonth y m + (d - 1)

/-- Seconds since the epoch 0001-01-01T00:00:00Z for a civil date-time. -/
def epochSeconds (y m d h mi s : Nat) : Int :=
  (dayNumber y m d : Int) * 86400 + h * 3600 + mi * 60 + s

/-- Model of `datetime.strptime(ts, "%Y-%m-%dT%H:%M:%SZ").replace(tzinfo=utc)`:
`some` of the instant in epoch seconds when Python parses `ts`, `none` when
Python raises `ValueError`.  `_strptime` compiles the format with
`re.IGNORECASE`, so the literal separators match `t`/`z` as well; field
widths and ranges follow the `_strptime` regex plus `datetime`'s date
validation. -/
def parseTimestamp (ts : String) : Option Int :=
  let norm := ts.toList.map fun c => if c = 't' then 'T' else if c = 'z' then 'Z' else c
  match splitOnChar 'T' norm with
  | [datePart, timeZ] =>
    if timeZ.getLast? = some 'Z' then
      match splitOnChar '-' datePart, splitOnChar ':' timeZ.dropLast with
      | [ys, ms, ds], [hs, mis, ss] => do
        let y ← parseField ys 4 4
        let m ← parseField ms 1 2
        let d ← parseField ds 1 2
        let h ← parseField hs 1 2
        let mi ← parseField mis 1 2
        let s ← parseField ss 1 2
        if 1 ≤ y ∧ 1 ≤ m ∧ m ≤ 12 ∧ 1 ≤ d ∧ d ≤ daysInMonth y m
            ∧ h ≤ 23 ∧ mi ≤ 59 ∧ s ≤ 59 then
          some (epochSeconds y m d h mi s)
        else
          none
      | _, _ => none
    else none
  | _ => none

/-- Python's `(now - dt).days`: `timedelta` normalises so that `days` is the
floor of the difference in days, also for negative differences. -/
def pyTimedeltaDays (seconds : Int) : Int :=
  seconds.fdiv 86400

/-! ### `parse_key_age` and `check_password_unused` -/

/-- Embedding of `parse_key_age` (lines 56-63).  The argument is `Option`
to mirror the `ts in ("N/A", "", None)` guard; `main` always passes a
string.  Total: the `except Exception: return ""` branch is the `none`
case of `parseTimestamp`. -/
def parse_key_age (now : Int) (ts : Option String) : String :=
  match ts with
  | none => ""
  | some s =>
    if s = "N/A" ∨ s = "" then ""
    else
      match parseTimestamp s with
      | none => ""
      | some t => toString (pyTimedeltaDays (now - t))

/-- Embedding of `check_password_unused` (lines 65-73). -/
def check_password_unused (now : Int) (ts : Option String) : String :=
  match ts with
  | none => ""
  | some s =>
    if s = "N/A" ∨ s = "" then ""
    else
      match parseTimestamp s with
      | none => ""
      | some t =>
        if pyTimedeltaDays (now - t) > 90 then ">90 days" else ""

/-! ### Python dict operations -/

/-- Lookup in an association list with Python-dict semantics: later insertions
override earlier ones, so the last matching pair wins. -/
def dictGet? (l : List (String × String)) (k : String) : Option String :=
  (l.reverse.find? fun p => p.1 == k).map Prod.snd

/-- Python's `d.get(k, dflt)`. -/
def dictGetD (l : List (String × String)) (k dflt : String) : String :=
  (dictGet? l k).getD dflt

/-- Python's `d[k]`: a missing key raises `KeyError`, which is uncaught in
`main` and aborts the run. -/
def dictIndex (l : List (String × String)) (k : String) : Except Unit String :=
  match dictGet? l k with
  | some v => .ok v
  | none => .error ()

/-- Embedding of `get_access_key_ids` (lines 75-80).  The
`iam.list_access_keys` call is the oracle `listKeys`: `.ok pairs` gives the
`(CreateDate.strftime(...), AccessKeyId)` pairs of the comprehension,
`.error` is the `except Exception: return {}` branch. -/
def get_access_key_ids (listKeys : Except Unit (List (String × String))) :
    List (String × String) :=
  match listKeys with
  | .error _ => []
  | .ok pairs => pairs

/-! ### `fetch_credential_report` -/

/-- Outcome of one `iam.get_credential_report()` call: the report content
(`Content` already UTF-8 decoded), the `CredentialReportNotReadyException`,
or any other exception (which the `for` loop does not catch). -/
inductive PollResp where
  | ready (content : String)
  | notReady
  | err
deriving DecidableEq

/-- Observable outcome of `fetch_credential_report`: the returned value
(`.error ()` when an uncaught exception escapes the loop), the number of
`get_credential_report` calls made, and the list of `time.sleep` durations
in seconds, in order. -/
structure FetchOut where
  result : Except Unit (Option String)
  attempts : Nat
  sleeps : List Nat

/-- The `for _ in range(10)` poll loop of lines 48-54: attempt `i` asks the
oracle `poll i`.  On `ready` the decoded content is returned; `notReady`
sleeps 2 seconds and retries; `err` propagates as an uncaught exception;
when the fuel runs out the function returns `None`. -/
def pollLoop (poll : Nat → PollResp) : Nat → Nat → FetchOut
  | 0, _ => ⟨.ok none, 0, []⟩
  | fuel + 1, i =>
    match poll i with
    | .ready c => ⟨.ok (some c), 1, []⟩
    | .err => ⟨.error (), 1, []⟩
    | .notReady =>
      let r := pollLoop poll fuel (i + 1)
      ⟨r.result, r.attempts + 1, 2 :: r.sleeps⟩

/-- Embedding of `fetch_credential_report` (lines 43-54).  `gen` is the
oracle for `iam.generate_credential_report()`: on `.error` the function
returns `None` at once (the `except Exception: return None` branch, with
zero poll attempts); on `.ok` it runs the 10-attempt poll loop. -/
def fetch_credential_report (gen : Except Unit Unit) (poll : Nat → PollResp) :
    FetchOut :=
  match gen with
  | .error _ => ⟨.ok none, 0, []⟩
  | .ok _ => pollLoop poll 10 0

/-! ### `main` -/

/-- Per-account oracle: whether `assume_role`+`client("iam")` succeed
(lines 91-96 catch any exception), the report-generation and poll oracles,
and the `list_access_keys` oracle keyed by username. -/
structure AccountEnv where
  assumeOk : Bool
  gen : Except Unit Unit
  poll : Nat → PollResp
  listKeys : String → Except Unit (List (String × String))

/-- Mutable state of `main`'s loop: the `header_written` flag, a count of
header appends (instrumenting line 121), the worksheet rows in append
order, and the printed log lines. -/
structure RunState where
  headerWritten : Bool
  headerEmits : Nat
  sheet : List (List String)
  log : List String

/-- Exclusion list of lines 108-111. -/
def exclude_fields : List String :=
  ["cert_1_active", "cert_1_last_rotated", "cert_2_active", "cert_2_last_rotated",
   "password_last_used", "password_last_changed", "password_next_rotation"]

/-- Line 112: `[f for f in header_fields if f not in exclude_fields]`. -/
def includedFields (header_fields : List String) : List String :=
  header_fields.filter fun f => !(exclude_fields.contains f)

/-- Lines 116-120: the emitted header row, with `account_id` inserted as the
third column and the five derived columns appended. -/
def final_header (header_fields : List String) : List String :=
  let included := includedFields header_fields
  included.take 2 ++ ["account_id"] ++ included.drop 2 ++
    ["access_key_1_id", "access_key_2_id",
     "access_key_1_age", "access_key_2_age",
     "password_unused_status"]

/-- The `row_dict = dict(zip(header_fields, row_values))` of line 126:
`zip` truncates to the shorter list, duplicate field names resolve to the
last value via `dictGet?`. -/
def rowDict (header_fields row_values : List String) : List (String × String) :=
  header_fields.zip row_values

/-- The list comprehension `[row_dict[f] for f in included_fields]` of
lines 130/145: every lookup must succeed, otherwise `KeyError` aborts. -/
def mapDict (g : String → Except Unit String) : List String → Except Unit (List String)
  | [] => .ok []
  | x :: xs =>
    match g x, mapDict g xs with
    | .ok v, .ok vs => .ok (v :: vs)
    | _, _ => .error ()

/-- Body of the `for line in data_lines` loop (lines 124-149) for one line:
produces the appended row together with a flag recording whether
`get_access_key_ids` was invoked (`iam.list_access_keys` traffic).  Root
rows (line 129) skip the lookup and append five empty derived fields;
other rows look up key ids and compute ages and the password flag.
Missing dict keys (`row_dict[...]`) raise `KeyError`, modelled as
`.error ()`, which aborts the whole run. -/
def processLine (now : Int) (env : AccountEnv) (account_id : String)
    (header_fields : List String) (line : String) :
    Except Unit (List String × Bool) :=
  let row_values := splitString ',' line
  let d := rowDict header_fields row_values
  match dictIndex d "user" with
  | .error _ => .error ()
  | .ok username =>
    let included := includedFields header_fields
    if pyStartsWith username "<root_account>" then
      match mapDict (dictIndex d) included with
      | .error _ => .error ()
      | .ok filtered =>
        .ok (filtered.take 2 ++ [account_id] ++ filtered.drop 2 ++
          ["", "", "", "", ""], false)
    else
      let key_ids := get_access_key_ids (env.listKeys username)
      match dictIndex d "access_key_1_last_rotated" with
      | .error _ => .error ()
      | .ok k1_rot =>
        match dictIndex d "access_key_2_last_rotated" with
        | .error _ => .error ()
        | .ok k2_rot =>
          let key1_age := parse_key_age now (some k1_rot)
          let key2_age := parse_key_age now (some k2_rot)
          let key1_id := dictGetD key_ids k1_rot ""
          let key2_id := dictGetD key_ids k2_rot ""
          match dictIndex d "password_last_used" with
          | .error _ => .error ()
          | .ok pw =>
            let password_unused := check_password_unused now (some pw)
            match mapDict (dictIndex d) included with
            | .error _ => .error ()
            | .ok filtered =>
              .ok (filtered.take 2 ++ [account_id] ++ filtered.drop 2 ++
                [key1_id, key2_id, key1_age, key2_age, password_unused], true)

/-- The `for line in data_lines` loop: each processed row is appended to the
worksheet; a `KeyError` aborts. -/
def processLines (now : Int) (env : AccountEnv) (account_id : String)
    (header_fields : List String) : List String → RunState → Except Unit RunState
  | [], st => .ok st
  | line :: rest, st =>
    match processLine now env account_id header_fields line with
    | .error _ => .error ()
    | .ok (row, _) =>
      processLines now env account_id header_fields rest
        { st with sheet := st.sheet ++ [row] }

/-- One iteration of the `for account_id in accounts` loop (lines 90-149).
Role-assumption failure logs `[ERROR]` and continues; a falsy report
(`None` or `""`) logs `[WARNING]` and continues; otherwise the report is
split into header and data lines, the shared header is appended once, and
every data line is processed and appended. -/
def processAccount (now : Int) (env : AccountEnv) (account_id : String)
    (st : RunState) : Except Unit RunState :=
  if !env.assumeOk then
    .ok { st with
      log := st.log ++ ["[ERROR] Failed to assume role for account: " ++ account_id] }
  else
    let fr := fetch_credential_report env.gen env.poll
    match fr.result with
    | .error _ => .error ()
    | .ok none =>
      .ok { st with
        log := st.log ++
          ["[WARNING] Could not fetch credential report for account: " ++ account_id] }
    | .ok (some content) =>
      if content = "" then
        .ok { st with
          log := st.log ++
            ["[WARNING] Could not fetch credential report for account: " ++ account_id] }
      else
        match splitString '\n' (pyStrip content) with
        | [] => .error ()
        | header :: data_lines =>
          let header_fields := splitString ',' header
          let st1 :=
            if !st.headerWritten then
              { st with
                headerWritten := true
                headerEmits := st.headerEmits + 1
                sheet := st.sheet ++ [final_header header_fields] }
            else st
          processLines now env account_id header_fields data_lines st1

/-- The account loop of `main`, threading the run state. -/
def mainLoop (now : Int) (env : String → AccountEnv) :
    List String → RunState → Except Unit RunState
  | [], st => .ok st
  | a :: rest, st =>
    match processAccount now (env a) a st with
    | .error _ => .error ()
    | .ok st' => mainLoop now env rest st'

/-- Final observable outcome of `main`: header-append count, worksheet
content, log lines, and whether `wb.save` was executed. -/
structure FinalState where
  headerEmits : Nat
  sheet : List (List String)
  log : List String
  saved : Bool

/-- Message printed by line 153 (`CSV_FILE` is the constant of line 8). -/
def successMessage : String :=
  "[SUCCESS] Excel report saved to: IAM/credential_reports_merged.xlsx"

/-- Embedding of `main` (lines 82-153).  After the account loop,
`os.makedirs` and `wb.save` run unconditionally (lines 151-152) and the
success message is printed (line 153); an uncaught exception inside the
loop aborts the run before any save. -/
def main (now : Int) (env : String → AccountEnv) (accounts : List String) :
    Except Unit FinalState :=
  match mainLoop now env accounts ⟨false, 0, [], []⟩ with
  | .error _ => .error ()
  | .ok st => .ok ⟨st.headerEmits, st.sheet, st.log ++ [successMessage], true⟩

/-! ### Derived observables used in theorem statements -/

/-- The truthy report content an account's iteration works on, if any:
`some c` exactly when role assumption succeeds and
`fetch_credential_report` returns a non-empty string (the `if not
report_csv` test of line 99 treats `None` and `""` alike). -/
def fetchedContent (env : AccountEnv) : Option String :=
  if !env.assumeOk then none
  else
    match (fetch_credential_report env.gen env.poll).result with
    | .ok (some c) => if c = "" then none else some c
    | _ => none

/-- An account is successfully processed when its iteration reaches the
report-splitting stage (lines 103 onward). -/
def accountSucceeds (env : AccountEnv) : Bool :=
  (fetchedContent env).isSome

/-- The report's own header fields: first line of the stripped content,
split on commas (lines 103-105). -/
def headerFieldsOf (content : String) : List String :=
  splitString ',' ((splitString '\n' (pyStrip content)).headD "")

/-- Header fields of the first successfully processed account, if any. -/
def firstSuccessFields (env : String → AccountEnv) : List String → Option (List String)
  | [] => none
  | a :: rest =>
    match fetchedContent (env a) with
    | some c => some (headerFieldsOf c)
    | none => firstSuccessFields env rest

/-! ### Structural lemmas about the poll loop -/

theorem pollLoop_attempts_le (poll : Nat → PollResp) :
    ∀ fuel i, (pollLoop poll fuel i).attempts ≤ fuel := by
  intro fuel
  induction fuel with
  | zero => intro i; simp [pollLoop]
  | succ n ih =>
    intro i
    unfold pollLoop
    cases poll i with
    | ready c => simp
    | err => simp
    | notReady => simpa using Nat.succ_le_succ (ih (i + 1))

theorem pollLoop_sleeps_two (poll : Nat → PollResp) :
    ∀ fuel i, ∀ x ∈ (pollLoop poll fuel i).sleeps, x = 2 := by
  intro fuel
  induction fuel with
  | zero => intro i x hx; simp [pollLoop] at hx
  | succ n ih =>
    intro i x hx
    unfold pollLoop at hx
    cases hpi : poll i with
    | ready c => rw [hpi] at hx; simp at hx
    | err => rw [hpi] at hx; simp at hx
    | notReady =>
      rw [hpi] at hx
      simp only [List.mem_cons] at hx
      rcases hx with rfl | hx
      · rfl
      · exact ih (i + 1) x hx

theorem pollLoop_all_notReady (poll : Nat → PollResp) :
    ∀ fuel i, (∀ j, j < fuel → poll (i + j) = .notReady) →
      pollLoop poll fuel i = ⟨.ok none, fuel, List.replicate fuel 2⟩ := by
  intro fuel
  induction fuel with
  | zero => intro i _; rfl
  | succ n ih =>
    intro i h
    have h0 : poll i = .notReady := by simpa using h 0 (Nat.succ_pos n)
    have hrec := ih (i + 1) fun j hj => by
      have := h (j + 1) (Nat.succ_lt_succ hj)
      simpa [Nat.add_assoc, Nat.add_comm 1 j] using this
    unfold pollLoop
    rw [h0, hrec]
    simp [List.replicate_succ]

theorem pollLoop_ready_at (poll : Nat → PollResp) :
    ∀ fuel i k c, k < fuel → (∀ j, j < k → poll (i + j) = .notReady) →
      poll (i + k) = .ready c →
      pollLoop poll fuel i = ⟨.ok (some c), k + 1, List.replicate k 2⟩ := by
  intro fuel
  induction fuel with
  | zero => intro i k c hk; exact absurd hk (Nat.not_lt_zero k)
  | succ n ih =>
    intro i k c hk hpre hready
    cases k with
    | zero =>
      have h0 : poll i = .ready c := by simpa using hready
      unfold pollLoop
      rw [h0]
      simp
    | succ k' =>
      have h0 : poll i = .notReady := by simpa using hpre 0 (Nat.succ_pos k')
      have hrec := ih (i + 1) k' c (Nat.lt_of_succ_lt_succ hk)
        (fun j hj => by
          have := hpre (j + 1) (Nat.succ_lt_succ hj)
          simpa [Nat.add_assoc, Nat.add_comm 1 j] using this)
        (by simpa [Nat.add_assoc, Nat.add_comm 1 k'] using hready)
      unfold pollLoop
      rw [h0, hrec]
      simp [List.replicate_succ]

/-! ### Structural lemmas about row processing -/

theorem mapDict_ok_mem (g : String → Except Unit String) :
    ∀ l res, mapDict g l = .ok res → ∀ x ∈ l, ∃ v, g x = .ok v ∧ v ∈ res := by
  intro l
  induction l with
  | nil => intro res _ x hx; simp at hx
  | cons y ys ih =>
    intro res hres x hx
    unfold mapDict at hres
    cases hg : g y with
    | error e => rw [hg] at hres; exact absurd hres (by simp)
    | ok v =>
      cases hm : mapDict g ys with
      | error e => rw [hg, hm] at hres; exact absurd hres (by simp)
      | ok vs =>
        rw [hg, hm] at hres
        simp only [Except.ok.injEq] at hres
        subst hres
        rcases List.mem_cons.mp hx with rfl | hx'
        · exact ⟨v, hg, List.mem_cons_self _ _⟩
        · obtain ⟨w, hw, hwm⟩ := ih vs hm x hx'
          exact ⟨w, hw, List.mem_cons_of_mem _ hwm⟩

theorem processLines_ok (now : Int) (env : AccountEnv) (aid : String)
    (hf : List String) :
    ∀ lines st st', processLines now env aid hf lines st = .ok st' →
      st'.headerWritten = st.headerWritten ∧ st'.headerEmits = st.headerEmits ∧
      st'.log = st.log ∧ ∃ extra, st'.sheet = st.sheet ++ extra := by
  intro lines
  induction lines with
  | nil =>
    intro st st' h
    simp only [processLines, Except.ok.injEq] at h
    subst h
    exact ⟨rfl, rfl, rfl, [], by simp⟩
  | cons line rest ih =>
    intro st st' h
    unfold processLines at h
    cases hp : processLine now env aid hf line with
    | error e => rw [hp] at h; exact absurd h (by simp)
    | ok rb =>
      rw [hp] at h
      obtain ⟨h1, h2, h3, extra, h4⟩ := ih _ _ h
      refine ⟨h1, h2, h3, rb.1 :: extra, ?_⟩
      simpa [List.append_assoc] using h4

theorem processAccount_ok (now : Int) (env : AccountEnv) (a : String)
    (st st' : RunState) (h : processAccount now env a st = .ok st') :
    st'.headerWritten = (st.headerWritten || accountSucceeds env)
  ∧ st'.headerEmits = st.headerEmits +
      (if st.headerWritten then 0 else if accountSucceeds env then 1 else 0)
  ∧ (∃ extra, st'.sheet = st.sheet ++ extra)
  ∧ (accountSucceeds env = false → st'.sheet = st.sheet)
  ∧ (st.headerWritten = false → ∀ c, fetchedContent env = some c →
      ∃ tail, st'.sheet = st.sheet ++ (final_header (headerFieldsOf c) :: tail)) := by
  unfold processAccount at h
  cases hOk : env.assumeOk with
  | false =>
    have hfc : fetchedContent env = none := by simp [fetchedContent, hOk]
    have hacc : accountSucceeds env = false := by simp [accountSucceeds, hfc]
    rw [hOk] at h
    simp only [Bool.not_false, if_pos] at h
    simp only [Except.ok.injEq] at h
    subst h
    refine ⟨by simp [hacc], by simp [hacc], ⟨[], by simp⟩, fun _ => rfl, ?_⟩
    intro _ c hc
    rw [hfc] at hc
    exact absurd hc (by simp)
  | true =>
    rw [hOk] at h
    simp only [Bool.not_true, Bool.false_eq_true, if_false] at h
    cases hr : (fetch_credential_report env.gen env.poll).result with
    | error e => rw [hr] at h; exact absurd h (by simp)
    | ok rep =>
      rw [hr] at h
      cases rep with
      | none =>
        have hfc : fetchedContent env = none := by simp [fetchedContent, hOk, hr]
        have hacc : accountSucceeds env = false := by simp [accountSucceeds, hfc]
        simp only [Except.ok.injEq] at h
        subst h
        refine ⟨by simp [hacc], by simp [hacc], ⟨[], by simp⟩, fun _ => rfl, ?_⟩
        intro _ c hc
        rw [hfc] at hc
        exact absurd hc (by simp)
      | some content =>
        dsimp only at h
        by_cases hc : content = ""
        · subst hc
          have hfc : fetchedContent env = none := by simp [fetchedContent, hOk, hr]
          have hacc : accountSucceeds env = false := by simp [accountSucceeds, hfc]
          rw [if_pos rfl] at h
          simp only [Except.ok.injEq] at h
          subst h
          refine ⟨by simp [hacc], by simp [hacc], ⟨[], by simp⟩, fun _ => rfl, ?_⟩
          intro _ c hcc
          rw [hfc] at hcc
          exact absurd hcc (by simp)
        · rw [if_neg hc] at h
          have hfc : fetchedContent env = some content := by
            simp [fetchedContent, hOk, hr, hc]
          have hacc : accountSucceeds env = true := by simp [accountSucceeds, hfc]
          cases hsplit : splitString '\n' (pyStrip content) with
          | nil => rw [hsplit] at h; exact absurd h (by simp)
          | cons header dataLines =>
            rw [hsplit] at h
            have hhf : headerFieldsOf content = splitString ',' header := by
              simp [headerFieldsOf, hsplit]
            cases hw : st.headerWritten with
            | false =>
              rw [hw] at h
              simp only [Bool.not_false, if_pos] at h
              obtain ⟨h1, h2, _h3, extra, h4⟩ := processLines_ok now env a
                (splitString ',' header) dataLines _ st' h
              refine ⟨?_, ?_, ?_, ?_, ?_⟩
              · rw [h1]; simp [hw, hacc]
              · rw [h2]; simp [hw, hacc]
              · exact ⟨final_header (splitString ',' header) :: extra, by
                  simpa [List.append_assoc] using h4⟩
              · intro hfa; rw [hacc] at hfa; exact absurd hfa (by simp)
              · intro _ c hcc
                rw [hfc] at hcc
                have : c = content := by injection hcc with hcc'; exact hcc'.symm
                subst this
                exact ⟨extra, by rw [hhf]; simpa [List.append_assoc] using h4⟩
            | true =>
              rw [hw] at h
              simp only [Bool.not_true, Bool.false_eq_true, if_false] at h
              obtain ⟨h1, h2, _h3, extra, h4⟩ := processLines_ok now env a
                (splitString ',' header) dataLines _ st' h
              refine ⟨?_, ?_, ⟨extra, h4⟩, ?_, ?_⟩
              · rw [h1]; simp [hw]
              · rw [h2]; simp [hw]
              · intro hfa; rw [hacc] at hfa; exact absurd hfa (by simp)
              · intro hwf; exact absurd hwf (by simp)

theorem mainLoop_ok (now : Int) (E : String → AccountEnv) :
    ∀ accounts st st', mainLoop now E accounts st = .ok st' →
      st'.headerWritten = (st.headerWritten ||
        accounts.any fun a => accountSucceeds (E a))
    ∧ st'.headerEmits = st.headerEmits +
        (if st.headerWritten then 0
         else if accounts.any (fun a => accountSucceeds (E a)) then 1 else 0)
    ∧ (∃ extra, st'.sheet = st.sheet ++ extra)
    ∧ (st.headerWritten = false → st.sheet = [] →
        st'.sheet.head? = (firstSuccessFields E accounts).map final_header) := by
  intro accounts
  induction accounts with
  | nil =>
    intro st st' h
    simp only [mainLoop, Except.ok.injEq] at h
    subst h
    refine ⟨by simp, by simp, ⟨[], by simp⟩, ?_⟩
    intro _ hsheet
    simp [hsheet, firstSuccessFields]
  | cons a rest ih =>
    intro st st' h
    unfold mainLoop at h
    cases hp : processAccount now (E a) a st with
    | error e => rw [hp] at h; exact absurd h (by simp)
    | ok st2 =>
      rw [hp] at h
      obtain ⟨p1, p2, ⟨ex1, p3⟩, p4, p5⟩ := processAccount_ok now (E a) a st st2 hp
      obtain ⟨q1, q2, ⟨ex2, q3⟩, q4⟩ := ih st2 st' h
      refine ⟨?_, ?_, ?_, ?_⟩
      · rw [q1, p1, List.any_cons, Bool.or_assoc]
      · rw [q2, p2, p1, List.any_cons]
        cases hw : st.headerWritten <;>
          cases ha : accountSucceeds (E a) <;>
          cases hrest : rest.any (fun x => accountSucceeds (E x)) <;> simp
      · exact ⟨ex1 ++ ex2, by rw [q3, p3, List.append_assoc]⟩
      · intro hw hsheet
        cases ha : accountSucceeds (E a) with
        | false =>
          have hfc : fetchedContent (E a) = none := by
            have := ha
            unfold accountSucceeds at this
            exact Option.not_isSome_iff_eq_none.mp (by simp [this])
          have hsheet2 : st2.sheet = st.sheet := p4 ha
          have hw2 : st2.headerWritten = false := by rw [p1, hw, ha]; rfl
          have := q4 hw2 (by rw [hsheet2, hsheet])
          rw [this]
          simp [firstSuccessFields, hfc]
        | true =>
          have hfc : ∃ c, fetchedContent (E a) = some c := by
            unfold accountSucceeds at ha
            exact Option.isSome_iff_exists.mp ha
          obtain ⟨c, hcc⟩ := hfc
          obtain ⟨tail, htail⟩ := p5 hw c hcc
          rw [q3, htail, hsheet]
          simp [firstSuccessFields, hcc]

/-! ### Small shared helper lemmas -/

theorem parseTimestamp_NA : parseTimestamp "N/A" = none := rfl

theorem parseTimestamp_emptyStr : parseTimestamp "" = none := rfl

theorem parse_ok_not_special {s : String} {t : Int}
    (hp : parseTimestamp s = some t) : ¬(s = "N/A" ∨ s = "") := by
  rintro (rfl | rfl)
  · rw [parseTimestamp_NA] at hp; cases hp
  · rw [parseTimestamp_emptyStr] at hp; cases hp

theorem parse_age_malformed (now : Int) (s : String)
    (hs : parseTimestamp s = none) :
    parse_key_age now (some s) = "" ∧ check_password_unused now (some s) = "" := by
  by_cases hna : s = "N/A" ∨ s = ""
  · constructor <;> simp [parse_key_age, check_password_unused, hna]
  · constructor <;> simp [parse_key_age, check_password_unused, hna, hs]

theorem dictIndex_ok {l : List (String × String)} {k v : String}
    (h : dictIndex l k = .ok v) : dictGet? l k = some v := by
  unfold dictIndex at h
  cases hg : dictGet? l k with
  | none => rw [hg] at h; cases h
  | some w => rw [hg] at h; injection h with h'; rw [h']

theorem mem_enriched_row {v : String} (filtered mid tail : List String)
    (hv : v ∈ filtered) :
    v ∈ filtered.take 2 ++ mid ++ filtered.drop 2 ++ tail := by
  have hsplit := List.take_append_drop 2 filtered
  rw [← hsplit] at hv
  rcases List.mem_append.mp hv with h | h <;> simp [List.mem_append, h]

theorem final_header_eq (hf : List String) :
    final_header hf =
      (includedFields hf).take 2 ++ ["account_id"] ++
      (includedFields hf).drop 2 ++
      ["access_key_1_id", "access_key_2_id",
       "access_key_1_age", "access_key_2_age",
       "password_unused_status"] := rfl

/-! ### Claim C4 -/

/-- Claim C4 is FALSE on the code: when `generate_credential_report` raises,
`fetch_credential_report` returns `None` immediately (line 47) and never
polls — here the poll oracle would answer `ready` on the very first
attempt, yet the fetcher makes zero attempts and reports not-available. -/
theorem C4_counterexample :
    fetch_credential_report (.error ())
        (fun _ => .ready "user\n<root_account>") =
      ⟨.ok none, 0, []⟩ := rfl

/-- Amended C4: an error raised by the report-generation request is NOT
ignored; it makes the fetcher return the not-available result (`None`)
at once, with zero poll attempts and no sleeping, for every poll oracle. -/
theorem C4_generation_error_skips_polling (poll : Nat → PollResp) :
    fetch_credential_report (.error ()) poll = ⟨.ok none, 0, []⟩ := rfl

/-! ### Claim C5 -/

/-- Claim C5, confirmed: for a missing (`None`), `"N/A"`, empty, or
unparsable timestamp, both `parse_key_age` and `check_password_unused`
return the empty string.  Both embeddings are total functions, so no
exception can escape (the Python `except Exception` branches are the
`none` cases of `parseTimestamp`). -/
theorem C5_malformed_timestamp_empty (now : Int) (ts : Option String)
    (h : ts = none ∨ ts = some "N/A" ∨ ts = some "" ∨
      ∃ s, ts = some s ∧ parseTimestamp s = none) :
    parse_key_age now ts = "" ∧ check_password_unused now ts = "" := by
  rcases h with rfl | rfl | rfl | ⟨s, rfl, hs⟩
  · exact ⟨rfl, rfl⟩
  · exact parse_age_malformed now "N/A" parseTimestamp_NA
  · exact parse_age_malformed now "" parseTimestamp_emptyStr
  · exact parse_age_malformed now s hs

/-- Witness for C5 at the concrete unparsable timestamp `"13/01/2026"`. -/
theorem C5_witness :
    parse_key_age 0 (some "13/01/2026") = "" ∧
    check_password_unused 0 (some "13/01/2026") = "" :=
  C5_malformed_timestamp_empty 0 (some "13/01/2026")
    (Or.inr (Or.inr (Or.inr ⟨"13/01/2026", rfl, rfl⟩)))

/-! ### Claim C6 -/

/-- Claim C6, confirmed: the fetcher makes at most 10 report-retrieval
attempts for any oracle; every sleep is exactly 2 seconds (fixed, no
backoff); when the first `k` polls are not-ready and attempt `k` finds the
report, the content is returned after `k + 1` attempts and `k` sleeps;
when all 10 polls are not-ready the fetcher returns the not-available
result after exactly 10 attempts.  The loop is a total function over a
fuel of 10, so it always terminates. -/
theorem C6_poll_budget (gen : Except Unit Unit) (poll : Nat → PollResp) :
    (fetch_credential_report gen poll).attempts ≤ 10
  ∧ (∀ x ∈ (fetch_credential_report gen poll).sleeps, x = 2)
  ∧ ((∀ i, i < 10 → poll i = .notReady) →
      fetch_credential_report (.ok ()) poll =
        ⟨.ok none, 10, List.replicate 10 2⟩)
  ∧ (∀ k c, k < 10 → (∀ i, i < k → poll i = .notReady) →
      poll k = .ready c →
      fetch_credential_report (.ok ()) poll =
        ⟨.ok (some c), k + 1, List.replicate k 2⟩) := by
  refine ⟨?_, ?_, ?_, ?_⟩
  · cases gen with
    | error e => simp [fetch_credential_report]
    | ok u => exact pollLoop_attempts_le poll 10 0
  · cases gen with
    | error e => intro x hx; simp [fetch_credential_report] at hx
    | ok u => exact pollLoop_sleeps_two poll 10 0
  · intro h
    exact pollLoop_all_notReady poll 10 0 fun j hj => by
      simpa using h j hj
  · intro k c hk hpre hready
    exact pollLoop_ready_at poll 10 0 k c hk
      (fun j hj => by simpa using hpre j hj)
      (by simpa using hready)

/-- Witness for C6: the all-not-ready oracle exhausts exactly 10 attempts
with 2-second sleeps, and an oracle that is ready on attempt 3 returns the
content after 4 attempts. -/
theorem C6_witness :
    (fetch_credential_report (.ok ()) fun _ => .notReady).attempts ≤ 10
  ∧ fetch_credential_report (.ok ()) (fun _ => .notReady) =
      ⟨.ok none, 10, List.replicate 10 2⟩
  ∧ fetch_credential_report (.ok ())
        (fun i => if i < 3 then .notReady else .ready "report-body") =
      ⟨.ok (some "report-body"), 4, List.replicate 3 2⟩ := by
  refine ⟨(C6_poll_budget (.ok ()) fun _ => .notReady).1,
    (C6_poll_budget (.ok ()) fun _ => .notReady).2.2.1 fun i _ => rfl,
    (C6_poll_budget (.ok ())
        (fun i => if i < 3 then .notReady else .ready "report-body")).2.2.2
      3 "report-body" (by decide) (fun i hi => by simp [hi]) (by simp)⟩

/-! ### Claim C8 -/

/-- Claim C8, confirmed: for a parsable `password_last_used` timestamp,
`check_password_unused` returns `">90 days"` exactly when the elapsed
whole-day count strictly exceeds 90 (e.g. 91 days in the past), and the
empty string at exactly 90 elapsed days — the boundary is `>`, not `≥`. -/
theorem C8_password_unused_boundary (now : Int) (s : String) (t : Int)
    (hp : parseTimestamp s = some t) :
    (90 < pyTimedeltaDays (now - t) →
      check_password_unused now (some s) = ">90 days")
  ∧ (pyTimedeltaDays (now - t) = 90 →
      check_password_unused now (some s) = "") := by
  have hna := parse_ok_not_special hp
  constructor
  · intro hd
    simp [check_password_unused, hna, hp, hd]
  · intro hd
    simp [check_password_unused, hna, hp, hd]

/-- Witness for C8: `2026-01-01T00:00:00Z` parses to 63902822400 epoch
seconds; 91 days later the flag is `">90 days"`, exactly 90 days later it
is empty. -/
theorem C8_witness :
    check_password_unused (63902822400 + 91 * 86400)
      (some "2026-01-01T00:00:00Z") = ">90 days"
  ∧ check_password_unused (63902822400 + 90 * 86400)
      (some "2026-01-01T00:00:00Z") = "" :=
  ⟨(C8_password_unused_boundary (63902822400 + 91 * 86400)
      "2026-01-01T00:00:00Z" 63902822400 rfl).1 (by decide),
   (C8_password_unused_boundary (63902822400 + 90 * 86400)
      "2026-01-01T00:00:00Z" 63902822400 rfl).2 (by decide)⟩

/-! ### Claim C10 -/

/-- Claim C10, confirmed: a timestamp that parses but lies strictly in the
future yields the string form of a negative day count (Python's
`timedelta.days` floors, so any future instant gives a day count `≤ -1`),
never the empty string — emptiness signals only missing or unparsable
input. -/
theorem C10_future_timestamp_negative (now : Int) (s : String) (t : Int)
    (hp : parseTimestamp s = some t) (hfut : now < t) :
    parse_key_age now (some s) = toString (pyTimedeltaDays (now - t))
  ∧ pyTimedeltaDays (now - t) < 0
  ∧ parse_key_age now (some s) ≠ "" := by
  have hna := parse_ok_not_special hp
  have h1 : parse_key_age now (some s) = toString (pyTimedeltaDays (now - t)) := by
    simp [parse_key_age, hna, hp]
  have h2 : pyTimedeltaDays (now - t) < 0 := by
    unfold pyTimedeltaDays
    rw [Int.fdiv_eq_ediv _ (by norm_num)]
    exact Int.ediv_neg' (by omega) (by norm_num)
  refine ⟨h1, h2, ?_⟩
  rw [h1]
  obtain ⟨m, hm⟩ := Int.eq_negSucc_of_lt_zero h2
  rw [hm]
  intro hcontra
  have hdata : (toString (Int.negSucc m)).data = '-' :: (Nat.repr (m + 1)).data := rfl
  rw [hcontra] at hdata
  cases hdata

/-- Witness for C10 at `now = 0` against the future instant
`2026-01-01T00:00:00Z` (epoch second 63902822400). -/
theorem C10_witness :
    parse_key_age 0 (some "2026-01-01T00:00:00Z") =
      toString (pyTimedeltaDays (0 - 63902822400))
  ∧ pyTimedeltaDays (0 - 63902822400) < 0
  ∧ parse_key_age 0 (some "2026-01-01T00:00:00Z") ≠ "" :=
  C10_future_timestamp_negative 0 "2026-01-01T00:00:00Z" 63902822400 rfl
    (by decide)

/-! ### Claim C1 -/

/-- Claim C1 is FALSE on the code: in a completed run where every account
is skipped (here: role assumption fails for the only account), the
accumulated row sequence is empty (`sheet = []`), yet the writer still
performs the file write (lines 151-152 run unconditionally, `saved =
true`) and prints the success message — there is no informational
no-rows message anywhere in the log. -/
theorem C1_counterexample :
    main 0 (fun _ => ⟨false, .ok (), fun _ => .notReady, fun _ => .error ()⟩)
      ["111111111111"] =
    .ok ⟨0, [],
      ["[ERROR] Failed to assume role for account: 111111111111",
       successMessage],
      true⟩ := rfl

/-- Amended C1: on every run that completes normally — regardless of
whether any account contributed rows — the output file IS written and the
success message is the last line printed; the code has no empty-run
branch. -/
theorem C1_always_saves (now : Int) (env : String → AccountEnv)
    (accounts : List String) (st : FinalState)
    (h : main now env accounts = .ok st) :
    st.saved = true ∧ st.log.getLast? = some successMessage := by
  unfold main at h
  cases hm : mainLoop now env accounts ⟨false, 0, [], []⟩ with
  | error e => rw [hm] at h; cases h
  | ok st0 =>
    rw [hm] at h
    injection h with h'
    subst h'
    exact ⟨rfl, by simp⟩

/-- Witness for C1 (amended): a run whose single account fails role
assumption still saves the file and ends with the success message. -/
theorem C1_witness :
    (⟨0, [],
      ["[ERROR] Failed to assume role for account: 999999999999",
       successMessage], true⟩ : FinalState).saved = true
  ∧ (⟨0, [],
      ["[ERROR] Failed to assume role for account: 999999999999",
       successMessage], true⟩ : FinalState).log.getLast? = some successMessage :=
  C1_always_saves 0
    (fun _ => ⟨false, .ok (), fun _ => .notReady, fun _ => .error ()⟩)
    ["999999999999"]
    ⟨0, [],
      ["[ERROR] Failed to assume role for account: 999999999999",
       successMessage], true⟩ rfl

/-! ### Claim C7 -/

/-- Claim C7 is FALSE as stated: it asserts the header row is emitted
exactly once on EVERY run, but in a completed run in which no account is
successfully processed (here: the single account's role assumption
fails), the header is emitted zero times. -/
theorem C7_counterexample :
    (main 0 (fun _ => ⟨false, .ok (), fun _ => .notReady, fun _ => .error ()⟩)
      ["222222222222"]).map FinalState.headerEmits = .ok 0 := rfl

/-- Amended C7: on every completed run the header row is emitted at most
once; it is emitted exactly once if and only if at least one account is
successfully processed, and in that case it is the first worksheet row and
its layout is computed (`final_header`) from the report header of the
FIRST successfully processed account. -/
theorem C7_header_once (now : Int) (E : String → AccountEnv)
    (accounts : List String) (st : FinalState)
    (h : main now E accounts = .ok st) :
    st.headerEmits ≤ 1
  ∧ (st.headerEmits = 1 ↔
      accounts.any (fun a => accountSucceeds (E a)) = true)
  ∧ st.sheet.head? = (firstSuccessFields E accounts).map final_header := by
  unfold main at h
  cases hm : mainLoop now E accounts ⟨false, 0, [], []⟩ with
  | error e => rw [hm] at h; cases h
  | ok st0 =>
    rw [hm] at h
    injection h with h'
    subst h'
    obtain ⟨_q1, q2, _q3, q4⟩ := mainLoop_ok now E accounts _ _ hm
    have hemits : st0.headerEmits =
        (if accounts.any (fun a => accountSucceeds (E a)) then 1 else 0) := by
      simpa using q2
    have hhead := q4 rfl rfl
    refine ⟨?_, ?_, hhead⟩
    · rw [hemits]
      cases accounts.any fun a => accountSucceeds (E a) <;> simp
    · rw [hemits]
      cases accounts.any fun a => accountSucceeds (E a) <;> simp

/-- Witness for C7 (amended): a run with one successful account whose
report is the single header line `"user"` emits the header exactly once,
as the first worksheet row, with the derived columns appended. -/
theorem C7_witness :
    (⟨1, [["user", "account_id", "access_key_1_id", "access_key_2_id",
        "access_key_1_age", "access_key_2_age", "password_unused_status"]],
      [successMessage], true⟩ : FinalState).headerEmits ≤ 1
  ∧ ((⟨1, [["user", "account_id", "access_key_1_id", "access_key_2_id",
        "access_key_1_age", "access_key_2_age", "password_unused_status"]],
      [successMessage], true⟩ : FinalState).headerEmits = 1 ↔
      (["333"].any fun a => accountSucceeds
        ((fun _ => ⟨true, .ok (), fun _ => .ready "user", fun _ => .error ()⟩) a))
        = true)
  ∧ (⟨1, [["user", "account_id", "access_key_1_id", "access_key_2_id",
        "access_key_1_age", "access_key_2_age", "password_unused_status"]],
      [successMessage], true⟩ : FinalState).sheet.head? =
      (firstSuccessFields
        (fun _ => ⟨true, .ok (), fun _ => .ready "user", fun _ => .error ()⟩)
        ["333"]).map final_header :=
  C7_header_once 0
    (fun _ => ⟨true, .ok (), fun _ => .ready "user", fun _ => .error ()⟩)
    ["333"]
    ⟨1, [["user", "account_id", "access_key_1_id", "access_key_2_id",
        "access_key_1_age", "access_key_2_age", "password_unused_status"]],
      [successMessage], true⟩ rfl

/-! ### Claim C2 -/

/-- Claim C2, confirmed, one conjunct per error kind of the taxonomy:
(1) role-assumption failure logs `[ERROR]` and the loop continues with the
remaining accounts, the skipped account contributing nothing but the log
line; (2) report-unavailable (fetch returns `None`) logs `[WARNING]` and
likewise continues; (3) a timestamp-parse failure degrades both derived
computations to the empty string; (4) a key-lookup failure
(`list_access_keys` raising) yields the empty dict, so every key-id field
defaults to `""` and row processing is unchanged — none of the four kinds
aborts the run. -/
theorem C2_errors_handled_locally (now : Int) (E : String → AccountEnv)
    (a : String) (rest : List String) (st : RunState) :
    ((E a).assumeOk = false →
      mainLoop now E (a :: rest) st =
        mainLoop now E rest { st with log := st.log ++
          ["[ERROR] Failed to assume role for account: " ++ a] })
  ∧ ((E a).assumeOk = true →
      (fetch_credential_report (E a).gen (E a).poll).result = .ok none →
      mainLoop now E (a :: rest) st =
        mainLoop now E rest { st with log := st.log ++
          ["[WARNING] Could not fetch credential report for account: " ++ a] })
  ∧ (∀ s, parseTimestamp s = none →
      parse_key_age now (some s) = "" ∧ check_password_unused now (some s) = "")
  ∧ (∀ env : AccountEnv, (∀ u, env.listKeys u = .error ()) →
      (∀ u k, dictGetD (get_access_key_ids (env.listKeys u)) k "" = "")
      ∧ ∀ aid hf line, processLine now env aid hf line =
          processLine now { env with listKeys := fun _ => .ok [] } aid hf line) := by
  refine ⟨?_, ?_, ?_, ?_⟩
  · intro h
    have hpa : processAccount now (E a) a st =
        .ok { st with log := st.log ++
          ["[ERROR] Failed to assume role for account: " ++ a] } := by
      unfold processAccount
      rw [h]
      rfl
    have step : mainLoop now E (a :: rest) st =
        match processAccount now (E a) a st with
        | .error _ => .error ()
        | .ok st' => mainLoop now E rest st' := rfl
    rw [step, hpa]
  · intro h1 h2
    have hpa : processAccount now (E a) a st =
        .ok { st with log := st.log ++
          ["[WARNING] Could not fetch credential report for account: " ++ a] } := by
      simp [processAccount, h1, h2]
    have step : mainLoop now E (a :: rest) st =
        match processAccount now (E a) a st with
        | .error _ => .error ()
        | .ok st' => mainLoop now E rest st' := rfl
    rw [step, hpa]
  · exact fun s hs => parse_age_malformed now s hs
  · intro env he
    refine ⟨?_, ?_⟩
    · intro u k
      rw [he u]
      rfl
    · intro aid hf line
      simp [processLine, he, get_access_key_ids]

/-- Witness for C2 at concrete inputs: a failing-assume account, a
no-report account, the unparsable timestamp `"not-a-time"`, and a
`list_access_keys` oracle that always raises. -/
theorem C2_witness :
    mainLoop 0 (fun _ => ⟨false, .ok (), fun _ => .notReady, fun _ => .error ()⟩)
      ["A"] ⟨false, 0, [], []⟩ =
      mainLoop 0 (fun _ => ⟨false, .ok (), fun _ => .notReady, fun _ => .error ()⟩)
        [] ⟨false, 0, [], ["[ERROR] Failed to assume role for account: A"]⟩
  ∧ mainLoop 0 (fun _ => ⟨true, .error (), fun _ => .notReady, fun _ => .error ()⟩)
      ["B"] ⟨false, 0, [], []⟩ =
      mainLoop 0 (fun _ => ⟨true, .error (), fun _ => .notReady, fun _ => .error ()⟩)
        [] ⟨false, 0, [],
          ["[WARNING] Could not fetch credential report for account: B"]⟩
  ∧ (parse_key_age 0 (some "not-a-time") = "" ∧
     check_password_unused 0 (some "not-a-time") = "")
  ∧ (dictGetD (get_access_key_ids
        ((⟨true, .ok (), fun _ => .notReady, fun _ => .error ()⟩ :
          AccountEnv).listKeys "bob")) "2020-01-01T00:00:00Z" "" = ""
     ∧ processLine 0
        (⟨true, .ok (), fun _ => .notReady, fun _ => .error ()⟩ : AccountEnv)
        "777" ["user"] "<root_account>" =
       processLine 0
        ({ (⟨true, .ok (), fun _ => .notReady, fun _ => .error ()⟩ : AccountEnv)
          with listKeys := fun _ => .ok [] })
        "777" ["user"] "<root_account>") := by
  refine ⟨?_, ?_, ?_, ?_⟩
  · exact (C2_errors_handled_locally 0
      (fun _ => ⟨false, .ok (), fun _ => .notReady, fun _ => .error ()⟩)
      "A" [] ⟨false, 0, [], []⟩).1 rfl
  · exact (C2_errors_handled_locally 0
      (fun _ => ⟨true, .error (), fun _ => .notReady, fun _ => .error ()⟩)
      "B" [] ⟨false, 0, [], []⟩).2.1 rfl rfl
  · exact (C2_errors_handled_locally 0
      (fun _ => ⟨false, .ok (), fun _ => .notReady, fun _ => .error ()⟩)
      "A" [] ⟨false, 0, [], []⟩).2.2.1 "not-a-time" rfl
  · exact ((C2_errors_handled_locally 0
      (fun _ => ⟨false, .ok (), fun _ => .notReady, fun _ => .error ()⟩)
      "A" [] ⟨false, 0, [], []⟩).2.2.2
      ⟨true, .ok (), fun _ => .notReady, fun _ => .error ()⟩
      (fun _ => rfl)).imp
      (fun g => by exact g "bob" "2020-01-01T00:00:00Z")
      (fun g => by exact g "777" ["user"] "<root_account>")

/-! ### Claim C3 -/

/-- Claim C3 is FALSE on the code: lines 108-112 EXCLUDE seven source
fields from the output.  Concretely, a source report whose header contains
`password_last_used` produces an output header without that field, and the
row's value for it (`SECRET-VALUE`) appears nowhere in the emitted row. -/
theorem C3_counterexample :
    "password_last_used" ∈ splitString ',' "user,password_last_used"
  ∧ (main 0 (fun _ => ⟨true, .ok (),
        fun _ => .ready "user,password_last_used\n<root_account>,SECRET-VALUE",
        fun _ => .error ()⟩) ["222"]).map FinalState.sheet =
      .ok [["user", "account_id", "access_key_1_id", "access_key_2_id",
            "access_key_1_age", "access_key_2_age", "password_unused_status"],
           ["<root_account>", "222", "", "", "", "", ""]]
  ∧ "password_last_used" ∉
      ["user", "account_id", "access_key_1_id", "access_key_2_id",
       "access_key_1_age", "access_key_2_age", "password_unused_status"]
  ∧ "SECRET-VALUE" ∉ ["<root_account>", "222", "", "", "", "", ""] :=
  ⟨by decide, rfl, by decide, by decide⟩

/-- Amended C3: the emitted header and every enriched row carry all source
report fields EXCEPT the seven in the exclusion list (`cert_1_active`,
`cert_1_last_rotated`, `cert_2_active`, `cert_2_last_rotated`,
`password_last_used`, `password_last_changed`, `password_next_rotation`);
the computed columns (`account_id` and the five derived fields) are always
present in the header, and each successfully produced row contains the
source value of every included field. -/
theorem C3_included_fields_present (now : Int) (env : AccountEnv)
    (aid : String) (hf : List String) (line : String) :
    (∀ f, f ∈ hf → f ∉ exclude_fields → f ∈ final_header hf)
  ∧ (∀ g, g ∈ ["account_id", "access_key_1_id", "access_key_2_id",
      "access_key_1_age", "access_key_2_age", "password_unused_status"] →
      g ∈ final_header hf)
  ∧ (∀ row b, processLine now env aid hf line = .ok (row, b) →
      ∀ f ∈ includedFields hf,
        ∃ v, dictGet? (rowDict hf (splitString ',' line)) f = some v ∧
          v ∈ row) := by
  refine ⟨?_, ?_, ?_⟩
  · intro f hmem hnex
    have hin : f ∈ includedFields hf := by
      unfold includedFields
      refine List.mem_filter.mpr ⟨hmem, ?_⟩
      simp [hnex]
    rw [final_header_eq]
    have hsplit := List.take_append_drop 2 (includedFields hf)
    rw [← hsplit] at hin
    rcases List.mem_append.mp hin with h | h <;> simp [List.mem_append, h]
  · intro g hg
    rw [final_header_eq]
    simp only [List.mem_cons, List.not_mem_nil, or_false] at hg
    rcases hg with rfl | rfl | rfl | rfl | rfl | rfl <;> simp [List.mem_append]
  · intro row b h f hfin
    unfold processLine at h
    dsimp only at h
    cases hu : dictIndex (rowDict hf (splitString ',' line)) "user" with
    | error e => rw [hu] at h; cases h
    | ok username =>
      rw [hu] at h
      dsimp only at h
      cases hroot : pyStartsWith username "<root_account>" with
      | true =>
        simp only [hroot, eq_self_iff_true, if_true] at h
        cases hm : mapDict (dictIndex (rowDict hf (splitString ',' line)))
            (includedFields hf) with
        | error e => rw [hm] at h; cases h
        | ok filtered =>
          rw [hm] at h
          injection h with h'
          injection h' with hrow hb
          subst hrow
          obtain ⟨v, hv, hvm⟩ :=
            mapDict_ok_mem _ (includedFields hf) filtered hm f hfin
          exact ⟨v, dictIndex_ok hv, mem_enriched_row filtered _ _ hvm⟩
      | false =>
        simp only [hroot, Bool.false_eq_true, if_false] at h
        cases h1 : dictIndex (rowDict hf (splitString ',' line))
            "access_key_1_last_rotated" with
        | error e => rw [h1] at h; cases h
        | ok k1 =>
          rw [h1] at h
          dsimp only at h
          cases h2 : dictIndex (rowDict hf (splitString ',' line))
              "access_key_2_last_rotated" with
          | error e => rw [h2] at h; cases h
          | ok k2 =>
            rw [h2] at h
            dsimp only at h
            cases h3 : dictIndex (rowDict hf (splitString ',' line))
                "password_last_used" with
            | error e => rw [h3] at h; cases h
            | ok pw =>
              rw [h3] at h
              dsimp only at h
              cases hm : mapDict (dictIndex (rowDict hf (splitString ',' line)))
                  (includedFields hf) with
              | error e => rw [hm] at h; cases h
              | ok filtered =>
                rw [hm] at h
                injection h with h'
                injection h' with hrow hb
                subst hrow
                obtain ⟨v, hv, hvm⟩ :=
                  mapDict_ok_mem _ (includedFields hf) filtered hm f hfin
                exact ⟨v, dictIndex_ok hv, mem_enriched_row filtered _ _ hvm⟩

/-- Witness for C3 (amended) at a concrete header and root row: `user`
survives into the emitted header, `account_id` is present, and the row
value of the included field `user` appears in the produced row. -/
theorem C3_witness :
    "user" ∈ final_header ["user", "password_last_used"]
  ∧ "account_id" ∈ final_header ["user", "password_last_used"]
  ∧ ∃ v, dictGet? (rowDict ["user"] (splitString ',' "<root_account>"))
        "user" = some v ∧
      v ∈ ["<root_account>", "444", "", "", "", "", ""] := by
  refine ⟨?_, ?_, ?_⟩
  · exact (C3_included_fields_present 0
      ⟨true, .ok (), fun _ => .notReady, fun _ => .error ()⟩
      "444" ["user", "password_last_used"] "<root_account>").1
      "user" (by decide) (by decide)
  · exact (C3_included_fields_present 0
      ⟨true, .ok (), fun _ => .notReady, fun _ => .error ()⟩
      "444" ["user", "password_last_used"] "<root_account>").2.1
      "account_id" (by decide)
  · exact (C3_included_fields_present 0
      ⟨true, .ok (), fun _ => .notReady, fun _ => .error ()⟩
      "444" ["user"] "<root_account>").2.2
      ["<root_account>", "444", "", "", "", "", ""] false rfl
      "user" (by decide)

/-! ### Claim C9 -/

/-- Claim C9, confirmed: for a report row whose `user` field starts with
`<root_account>`, the produced row is the filtered source values with the
processed account's id inserted as third column and ALL five derived
fields (`access_key_1_id`, `access_key_2_id`, `access_key_1_age`,
`access_key_2_age`, `password_unused_status`) empty; no access-key lookup
is performed — witnessed both by the `false` lookup flag and by the result
being identical for ANY two `list_access_keys` oracles. -/
theorem C9_root_row (now : Int) (env env' : AccountEnv) (aid : String)
    (hf : List String) (line : String) (u : String)
    (hu : dictGet? (rowDict hf (splitString ',' line)) "user" = some u)
    (hroot : pyStartsWith u "<root_account>" = true) :
    processLine now env aid hf line = processLine now env' aid hf line
  ∧ ∀ row looked, processLine now env aid hf line = .ok (row, looked) →
      looked = false
    ∧ ∃ filtered : List String, row =
        filtered.take 2 ++ [aid] ++ filtered.drop 2 ++ ["", "", "", "", ""] := by
  have hidx : dictIndex (rowDict hf (splitString ',' line)) "user" = .ok u := by
    unfold dictIndex
    rw [hu]
  constructor
  · unfold processLine
    dsimp only
    rw [hidx]
    dsimp only
    simp only [hroot, eq_self_iff_true, if_true]
  · intro row looked h
    unfold processLine at h
    dsimp only at h
    rw [hidx] at h
    dsimp only at h
    simp only [hroot, eq_self_iff_true, if_true] at h
    cases hm : mapDict (dictIndex (rowDict hf (splitString ',' line)))
        (includedFields hf) with
    | error e => rw [hm] at h; cases h
    | ok filtered =>
      rw [hm] at h
      injection h with h'
      injection h' with hrow hlooked
      exact ⟨hlooked.symm, filtered, hrow.symm⟩

/-- Witness for C9 on a one-column report row whose user is
`<root_account>`: two arbitrary different oracles give the same result,
the lookup flag is `false`, the account id is attributed and the five
derived fields are empty. -/
theorem C9_witness :
    processLine 0 (⟨true, .ok (), fun _ => .notReady, fun _ => .error ()⟩ :
        AccountEnv) "555" ["user"] "<root_account>" =
      processLine 0 (⟨false, .error (), fun _ => .err,
        fun _ => .ok [("2020-01-01T00:00:00Z", "AKIAEXAMPLE")]⟩ :
        AccountEnv) "555" ["user"] "<root_account>"
  ∧ (false = false ∧ ∃ filtered : List String,
      ["<root_account>", "555", "", "", "", "", ""] =
        filtered.take 2 ++ ["555"] ++ filtered.drop 2 ++
          ["", "", "", "", ""]) :=
  ⟨(C9_root_row 0
      ⟨true, .ok (), fun _ => .notReady, fun _ => .error ()⟩
      ⟨false, .error (), fun _ => .err,
        fun _ => .ok [("2020-01-01T00:00:00Z", "AKIAEXAMPLE")]⟩
      "555" ["user"] "<root_account>" "<root_account>" rfl rfl).1,
   (C9_root_row 0
      ⟨true, .ok (), fun _ => .notReady, fun _ => .error ()⟩
      ⟨false, .error (), fun _ => .err,
        fun _ => .ok [("2020-01-01T00:00:00Z", "AKIAEXAMPLE")]⟩
      "555" ["user"] "<root_account>" "<root_account>" rfl rfl).2
     ["<root_account>", "555", "", "", "", "", ""] false rfl⟩

end IAMReport
